import Mathlib

/-!
Shallow embedding of the representative-lookup and occupant-sync core of the
seattle-councilmatic repository:

* `src/seattle_app/management/commands/sync_councilmatic.py` (`Command.sync_people`)
* `src/reps/services.py` (`GeocodingService`, `DistrictLookupService`, `RepLookupService`)
* `src/reps/views.py` (`lookup_reps`)
* `src/reps/models.py` (`District`)

Machine data (SQL rows, Django model rows, Python dicts) is embedded as Lean
structures over `String`/`Nat`/`Int`; external capabilities (the Nominatim
geocoder, the PostGIS containment query, the `OCDPerson` read) are injected as
functions, with fallible ones returning `Except`/`Option` mirroring the Python
exception structure.  All definitions are executable so concrete runs evaluate
by kernel reduction.
-/

namespace Seattle

/-! ### Character-level string primitives

SQL `ORDER BY` on a text column, SQL `LIKE 'Position%'`, Python `str.strip()`,
`str.lower()` and the Python `in` substring test are modelled on the character
lists underlying `String`. -/

/-- Codepoint-lexicographic strict order on character lists: the comparison
underlying SQL `ORDER BY <text column>` (C collation), used by
`ORDER BY m.label` in `_get_representatives_for_district` and by the Django
`Meta.ordering = ['number']` on `District`. -/
def charListLt : List Char → List Char → Bool
  | _, [] => false
  | [], _ :: _ => true
  | a :: as, b :: bs =>
    if a < b then true
    else if b < a then false
    else charListLt as bs

/-- Strict codepoint order on strings. -/
def strLt (a b : String) : Bool := charListLt a.data b.data

/-- Reflexive codepoint order on strings (`a ≤ b` iff not `b < a`). -/
def strLe (a b : String) : Bool := !(strLt b a)

/-- `charPrefix p l` holds iff `p` is a prefix of `l`: the semantics of
SQL `label LIKE 'Position%'`. -/
def charPrefix : List Char → List Char → Bool
  | [], _ => true
  | _ :: _, [] => false
  | a :: as, b :: bs => a == b && charPrefix as bs

/-- `charInfix n h` holds iff `n` occurs contiguously in `h`: the semantics of
the Python substring test `"seattle" in address.lower()`. -/
def charInfix (needle : List Char) : List Char → Bool
  | [] => charPrefix needle []
  | h :: t => charPrefix needle (h :: t) || charInfix needle t

/-- Python `str.strip()` (no argument): remove leading and trailing whitespace. -/
def pyStrip (s : String) : String :=
  String.mk (((s.data.dropWhile Char.isWhitespace).reverse.dropWhile Char.isWhitespace).reverse)

/-- Python `str.lower()`. -/
def pyLower (s : String) : String := String.mk (s.data.map Char.toLower)

/-! ### Occupancy records and the current-occupant recomputation

`Command.sync_people` (src/seattle_app/management/commands/sync_councilmatic.py,
lines 36-118) recomputes the `is_current` flags of `councilmatic_core_person`
from the joined OCD data with three SQL statements on one autocommit connection:

1. `UPDATE councilmatic_core_person SET is_current = FALSE`;
2. `UPDATE ... SET is_current = TRUE WHERE person_id IN (...)` where the subquery
   ranks, per membership label, the joined person rows with
   `ROW_NUMBER() OVER (PARTITION BY m.label ORDER BY p.created_at DESC, p.id DESC)`
   and keeps `rn = 1`;
3. `INSERT INTO councilmatic_core_person ...` for `rn = 1` people missing from the
   table (arriving with `is_current = TRUE`). -/

/-- One occupancy record: the abstraction of one row of the join
`opencivicdata_person p INNER JOIN opencivicdata_membership m ...` restricted by
`o.name = 'Seattle City Council' AND m.label IS NOT NULL` in `sync_people`.
`seatLabel` is `m.label`, `personId` is `p.id`, `createdAt` is `p.created_at`,
and `recordId` abstracts the ranking identifier the SQL breaks `created_at` ties
with (`p.id`, monotone with insertion order), as a `Nat` preserving that order. -/
structure OccupancyRecord where
  seatLabel : String
  personId : String
  createdAt : Nat
  recordId : Nat
deriving DecidableEq

/-- The ranking key of `ORDER BY p.created_at DESC, p.id DESC`. -/
def recKey (r : OccupancyRecord) : Nat × Nat := (r.createdAt, r.recordId)

/-- Strict lexicographic order on ranking keys: `a` ranks strictly below `b`. -/
def keyLt (a b : Nat × Nat) : Prop := a.1 < b.1 ∨ (a.1 = b.1 ∧ a.2 < b.2)

instance (a b : Nat × Nat) : Decidable (keyLt a b) := by
  unfold keyLt
  infer_instance

/-- Weak order on ranking keys. -/
def keyLe (a b : Nat × Nat) : Prop := a = b ∨ keyLt a b

/-- `laterRecord r s` keeps whichever of the two rows ranks first under
`ORDER BY p.created_at DESC, p.id DESC` (the challenger `s` only wins strictly). -/
def laterRecord (r s : OccupancyRecord) : OccupancyRecord :=
  if keyLt (recKey r) (recKey s) then s else r

/-- The row ranked `rn = 1` by the window
`ROW_NUMBER() OVER (PARTITION BY m.label ORDER BY p.created_at DESC, p.id DESC)`
within one partition, given as a list. -/
def selectCurrent : List OccupancyRecord → Option OccupancyRecord
  | [] => none
  | r :: rs => some (rs.foldl laterRecord r)

/-- The partition of the records carrying seat label `label`
(SQL `PARTITION BY m.label`). -/
def recordsForLabel (records : List OccupancyRecord) (label : String) :
    List OccupancyRecord :=
  records.filter (fun r => r.seatLabel == label)

/-- The derived `CurrentOccupancy` mapping: the person of the `rn = 1` row of
the label's partition (none when the label has no records). -/
def computeCurrent (records : List OccupancyRecord) (label : String) : Option String :=
  (selectCurrent (recordsForLabel records label)).map (·.personId)

/-- A record is selected current iff it is the `rn = 1` row of its label's
partition. -/
def isCurrentRecord (records : List OccupancyRecord) (r : OccupancyRecord) : Bool :=
  decide (selectCurrent (recordsForLabel records r.seatLabel) = some r)

/-- One row of the `councilmatic_core_person` table: `person_id` plus the
`is_current` flag that `sync_people` recomputes. -/
structure PersonFlag where
  personId : String
  isCurrent : Bool
deriving DecidableEq

/-- Statement 1 of `sync_people`:
`UPDATE councilmatic_core_person SET is_current = FALSE`. -/
def clearAll (t : List PersonFlag) : List PersonFlag :=
  t.map (fun p => { p with isCurrent := false })

/-- The `person_id` set selected by the ranked subquery of statements 2 and 3:
for each distinct membership label, the person of its `rn = 1` row. -/
def currentIds (records : List OccupancyRecord) : List String :=
  ((records.map (·.seatLabel)).dedup).filterMap (fun l => computeCurrent records l)

/-- Statement 2 of `sync_people`:
`UPDATE ... SET is_current = TRUE WHERE person_id IN (rn = 1 selection)`. -/
def markCurrent (records : List OccupancyRecord) (t : List PersonFlag) :
    List PersonFlag :=
  t.map (fun p =>
    if (currentIds records).elem p.personId then { p with isCurrent := true } else p)

def tableIds (t : List PersonFlag) : List String := t.map (·.personId)

/-- Statement 3 of `sync_people`: insert the `rn = 1` people whose `person_id`
is `NOT IN (SELECT person_id FROM councilmatic_core_person)`, each arriving with
`is_current = TRUE` (the `SELECT DISTINCT` collapses duplicate ids). -/
def insertMissing (records : List OccupancyRecord) (t : List PersonFlag) :
    List PersonFlag :=
  t ++ ((currentIds records).dedup.filter (fun i => !(tableIds t).elem i)).map
    (fun i => { personId := i, isCurrent := true })

/-- The whole effect of `sync_people` on the `councilmatic_core_person` table. -/
def syncPeople (records : List OccupancyRecord) (t : List PersonFlag) :
    List PersonFlag :=
  insertMissing records (markCurrent records (clearAll t))

/-- The sequence of table states a concurrent reader can observe while
`sync_people` runs: the command executes its statements on one autocommit
connection with no enclosing transaction, so the state after each statement is
committed and immediately visible. -/
def syncPeopleStates (records : List OccupancyRecord) (t : List PersonFlag) :
    List (List PersonFlag) :=
  [t, clearAll t, markCurrent records (clearAll t), syncPeople records t]

/-- The `is_current` flag a reader sees for a person id (false if the row is
absent from the table). -/
def flagOf (t : List PersonFlag) (pid : String) : Bool :=
  match t.find? (fun p => p.personId == pid) with
  | some p => p.isCurrent
  | none => false

/-- How many records of `label` a reader counts as current in table state `t`
(the lookup path joins memberships with `councilmatic_core_person.is_current`). -/
def currentRecordCount (t : List PersonFlag) (records : List OccupancyRecord)
    (label : String) : Nat :=
  ((recordsForLabel records label).filter (fun r => flagOf t r.personId)).length

/-! ### District store and the containment lookup (reps/models.py, reps/services.py) -/

/-- A geographic point as `(longitude, latitude)` — the source builds
`Point(longitude, latitude, srid=4326)`.  Coordinates are abstracted as scaled
integers; the geometric predicate itself is an external PostGIS capability. -/
abbrev GeoPoint := Int × Int

/-- One row of `reps_district` (`reps/models.py::District`): `number` is the
unique district label (`"1"`..`"7"` or `"At Large"`), `name` the display name,
and `geom` the stored boundary, consumed only through the containment query
`geometry__contains` and therefore embedded as the predicate it answers. -/
structure District where
  number : String
  name : String
  geom : GeoPoint → Bool

/-- Django `Meta.ordering = ['number']` on `District` (models.py:37-40). -/
def districtLe (a b : District) : Prop := strLe a.number b.number = true

instance : DecidableRel districtLe := fun a b => by
  unfold districtLe
  infer_instance

/-- The queryset semantics of
`District.objects.filter(geometry__contains=point).first()`
(services.py:146): the queryset carries the default ordering by `number`, so
`.first()` yields the containing district with the least `number`. -/
def districtQueryDb (store : List District) (p : GeoPoint) : Option District :=
  ((List.insertionSort districtLe store).filter (fun d => d.geom p)).head?

/-- `find_district_by_coordinates` (services.py:116-150): run the containment
query, catching any database exception and returning `None` in that case. -/
def find_district_by_coordinates (dq : GeoPoint → Except String (Option District))
    (latitude longitude : Int) : Option District :=
  match dq (longitude, latitude) with
  | .ok d => d
  | .error _ => none

/-- The containment capability as served by PostGIS over the stored districts
(no database failure injected). -/
def storeQuery (store : List District) : GeoPoint → Except String (Option District) :=
  fun p => .ok (districtQueryDb store p)

/-! ### Geocoding (`GeocodingService`, services.py:19-79) -/

/-- What one `geolocator.geocode` call can do: return a location, return
nothing, raise `GeocoderTimedOut`, or raise `GeocoderServiceError`. -/
inductive GeocodeOutcome where
  | located (latitude longitude : Int) (formattedAddress : String)
  | noHit
  | timedOut
  | failed (msg : String)

/-- The dict returned by a successful `geocode_address`. -/
structure GeocodeHit where
  latitude : Int
  longitude : Int
  formatted_address : String
deriving DecidableEq

/-- One run of `GeocodingService.geocode_address`: the returned value (`none`
for the `return None` paths), the addresses sent to the provider, and the lines
printed to the log. -/
structure GeocodeRun where
  result : Option GeocodeHit
  providerCalls : List String
  printed : List String
deriving DecidableEq

/-- The address normalization at the top of `geocode_address`
(services.py:56-59): append `", Seattle, WA"` when the lowercased address does
not contain `"seattle"`. -/
def normalizeAddress (address : String) : String :=
  if charInfix "seattle".data (pyLower address).data then address
  else address ++ ", Seattle, WA"

/-- `geocode_address` (services.py:35-79): call the provider exactly once on the
normalized address (no retry); map an empty result, a `GeocoderTimedOut` and a
`GeocoderServiceError` all to `None`, printing a log line only in the
service-error case. -/
def geocode_address (provider : String → GeocodeOutcome) (address : String) :
    GeocodeRun :=
  let addr := normalizeAddress address
  match provider addr with
  | .located la lo f =>
    { result := some ⟨la, lo, f⟩, providerCalls := [addr], printed := [] }
  | .noHit => { result := none, providerCalls := [addr], printed := [] }
  | .timedOut => { result := none, providerCalls := [addr], printed := [] }
  | .failed e =>
    { result := none, providerCalls := [addr],
      printed := ["Geocoding service error: " ++ e] }

/-! ### Representative query and enrichment (`RepLookupService`, services.py:153-288) -/

/-- One row of the membership join visible to `_get_representatives_for_district`:
the joined `opencivicdata` person/membership/organization columns together with
the `councilmatic_core_person.is_current` flag the SQL filters on. -/
structure MembershipRow where
  personName : String
  role : String
  label : String
  personId : String
  orgName : String
  isCurrent : Bool
deriving DecidableEq

/-- The projected columns of `SELECT DISTINCT p.name, m.role, m.label, p.id`. -/
structure QRow where
  name : String
  role : String
  label : String
  person_id : String
deriving DecidableEq

def projRow (m : MembershipRow) : QRow :=
  ⟨m.personName, m.role, m.label, m.personId⟩

/-- `ORDER BY m.label` as a relation on projected rows. -/
def qrowLe (a b : QRow) : Prop := strLe a.label b.label = true

instance : DecidableRel qrowLe := fun a b => by
  unfold qrowLe
  infer_instance

/-- The SQL of `_get_representatives_for_district` (services.py:242-256): keep
current Seattle City Council memberships whose label equals
`District {district_number}` or begins with `Position` (`LIKE 'Position%'`);
project; deduplicate (`SELECT DISTINCT`); sort by label (`ORDER BY m.label`). -/
def repQueryRows (rows : List MembershipRow) (districtLabel : String) : List QRow :=
  List.insertionSort qrowLe
    (((rows.filter (fun m =>
        m.orgName == "Seattle City Council" && m.isCurrent &&
          (m.label == districtLabel || charPrefix "Position".data m.label.data))).map
      projRow).dedup)

/-- A row of `person.contact_details` (`{type, value}`). -/
structure ContactDetail where
  type : String
  value : String
deriving DecidableEq

/-- A row of `person.links` (`{note, url}`). -/
structure PersonLink where
  note : String
  url : String
deriving DecidableEq

/-- The OCD person fetched by `OCDPerson.objects.get(id=person_id)`. -/
structure OCDPerson where
  name : String
  contact_details : List ContactDetail
  links : List PersonLink
deriving DecidableEq

/-- One entry of the returned representatives list (the `rep_data` dict):
an optional key is `none` exactly when it was never assigned. -/
@[ext]
structure RepData where
  name : String
  role : String
  district : String
  email : Option String
  phone : Option String
  profile_url : Option String
deriving DecidableEq

/-- One iteration of the `for contact in contact_details` loop
(services.py:274-278): a matching contact assigns (overwrites) its key. -/
def applyContact (rd : RepData) (c : ContactDetail) : RepData :=
  if c.type == "email" then { rd with email := some c.value }
  else if c.type == "voice" then { rd with phone := some c.value }
  else rd

/-- One iteration of the `for link in links` loop (services.py:281-284). -/
def applyLink (rd : RepData) (l : PersonLink) : RepData :=
  if l.note == "City Council profile" then { rd with profile_url := some l.url }
  else rd

/-- Build one `rep_data` entry for a query row from the fetched person
(services.py:262-286): base dict, then the contacts loop, then the links loop. -/
def buildRepData (q : QRow) (p : OCDPerson) : RepData :=
  p.links.foldl applyLink
    (p.contact_details.foldl applyContact
      { name := q.name, role := q.role, district := q.label,
        email := none, phone := none, profile_url := none })

/-- The enrichment in the words of claim C6, for comparison with the source:
the FIRST contact of each type and the FIRST matching link. -/
def specFirstEnrichment (q : QRow) (p : OCDPerson) : RepData :=
  { name := q.name, role := q.role, district := q.label,
    email :=
      ((p.contact_details.filter (fun c => c.type == "email")).head?).map (·.value),
    phone :=
      ((p.contact_details.filter (fun c => c.type == "voice")).head?).map (·.value),
    profile_url :=
      ((p.links.filter (fun l => l.note == "City Council profile")).head?).map (·.url) }

/-- What the code's overwrite loops actually compute, stated declaratively: the
LAST matching contact/link of each kind. -/
def lastEnrichment (q : QRow) (p : OCDPerson) : RepData :=
  { name := q.name, role := q.role, district := q.label,
    email :=
      ((p.contact_details.filter (fun c => c.type == "email")).getLast?).map (·.value),
    phone :=
      ((p.contact_details.filter (fun c => c.type == "voice")).getLast?).map (·.value),
    profile_url :=
      ((p.links.filter (fun l => l.note == "City Council profile")).getLast?).map (·.url) }

/-- Evaluate the per-row body of the cursor loop in order, stopping at the
first raised exception (the `OCDPerson` read is the fallible step). -/
def mapExcept (f : α → Except String β) : List α → Except String (List β)
  | [] => .ok []
  | a :: as =>
    match f a with
    | .error e => .error e
    | .ok b =>
      match mapExcept f as with
      | .error e => .error e
      | .ok bs => .ok (b :: bs)

/-- `_get_representatives_for_district` (services.py:206-288): run the SQL
query for `District {district_number}`, then for each row fetch the `OCDPerson`
and build its `rep_data`. -/
def getRepresentativesForDistrict (rows : List MembershipRow)
    (personRead : String → Except String OCDPerson) (district_number : String) :
    Except String (List RepData) :=
  mapExcept (fun q => (personRead q.person_id).map (buildRepData q))
    (repQueryRows rows ("District " ++ district_number))

/-! ### Lookup pipeline and view (services.py:87-204, views.py:46-84) -/

/-- The injected collaborators of one lookup: the geocoding provider, the
PostGIS containment query (may raise), the `OCDPerson` read (may raise), and
the membership join data. -/
structure Env where
  provider : String → GeocodeOutcome
  districtQuery : GeoPoint → Except String (Option District)
  personRead : String → Except String OCDPerson
  memberships : List MembershipRow

/-- `find_district_by_address` (services.py:87-114): geocode, then containment
lookup; `None` from either stage propagates.  The second component is the
provider-call trace of the geocoding stage. -/
def find_district_by_address (env : Env) (address : String) :
    Option District × List String :=
  let run := geocode_address env.provider address
  match run.result with
  | none => (none, run.providerCalls)
  | some loc =>
    (find_district_by_coordinates env.districtQuery loc.latitude loc.longitude,
      run.providerCalls)

/-- The successful payload of `RepLookupService.lookup_by_address` (the
district's GeoJSON geometry is presentation data and is not modelled). -/
structure LookupResult where
  districtNumber : String
  districtName : String
  representatives : List RepData

/-- `lookup_by_address` (services.py:162-204): resolve the district, then
assemble the representatives; an exception raised by the assembly escapes to
the caller. -/
def lookup_by_address (env : Env) (address : String) :
    Except String (Option LookupResult) × List String :=
  match find_district_by_address env address with
  | (none, tr) => (.ok none, tr)
  | (some d, tr) =>
    match getRepresentativesForDistrict env.memberships env.personRead d.number with
    | .error e => (.error e, tr)
    | .ok reps => (.ok (some ⟨d.number, d.name, reps⟩), tr)

/-- An HTTP response of the view: status code and the `error` payload field. -/
structure ViewResponse where
  status : Nat
  error : Option String
deriving DecidableEq

/-- `lookup_reps` (views.py:46-84), from the point where the request body has
been parsed and the `address` field extracted (default `""`): strip it, reject
blank input with 400 before any service call, map a `None` lookup result to
404, a payload to 200, and any escaped exception to 500.  The second component
is the list of geocoder calls made while serving the request. -/
def lookup_reps (env : Env) (address : String) : ViewResponse × List String :=
  let addr := pyStrip address
  if addr == "" then
    ({ status := 400, error := some "Address parameter is required" }, [])
  else
    match lookup_by_address env addr with
    | (.error _, tr) => ({ status := 500, error := some "Internal server error" }, tr)
    | (.ok none, tr) =>
      ({ status := 404, error := some "Address not found or not in Seattle" }, tr)
    | (.ok (some _), tr) => ({ status := 200, error := none }, tr)


/-! ### Concrete sample data used by witnesses and counterexamples -/

/-- A snapshot with a `createdAt` tie on "Position 9" broken by `recordId`,
plus an unrelated "District 4" record. -/
def c1Records : List OccupancyRecord :=
  [{ seatLabel := "Position 9", personId := "ocd-person/sara-nelson",
     createdAt := 5, recordId := 1 },
   { seatLabel := "Position 9", personId := "ocd-person/dionne-foster",
     createdAt := 5, recordId := 2 },
   { seatLabel := "District 4", personId := "ocd-person/maritza-rivera",
     createdAt := 9, recordId := 3 }]

/-- A "Position 9" transition: the second record is strictly newer. -/
def c2Records : List OccupancyRecord :=
  [{ seatLabel := "Position 9", personId := "ocd-person/sara-nelson",
     createdAt := 1, recordId := 1 },
   { seatLabel := "Position 9", personId := "ocd-person/dionne-foster",
     createdAt := 2, recordId := 2 }]

/-- The `councilmatic_core_person` table before a sync run: the older occupant
is still flagged current. -/
def c2Table : List PersonFlag :=
  [{ personId := "ocd-person/sara-nelson", isCurrent := true },
   { personId := "ocd-person/dionne-foster", isCurrent := false }]

/-- A district whose stored boundary contains every point. -/
def c3d7 : District := { number := "7", name := "District 7", geom := fun _ => true }

/-- A second, overlapping district with a smaller label. -/
def c3d3 : District := { number := "3", name := "District 3", geom := fun _ => true }

/-- A store with two overlapping boundaries (a data anomaly). -/
def c3Store : List District := [c3d7, c3d3]

/-- Current Seattle City Council membership rows, deliberately out of label
order. -/
def c4Rows : List MembershipRow :=
  [{ personName := "Dionne Foster", role := "Councilmember", label := "Position 9",
     personId := "ocd-person/df", orgName := "Seattle City Council", isCurrent := true },
   { personName := "Robert Kettle", role := "Councilmember", label := "District 7",
     personId := "ocd-person/rk", orgName := "Seattle City Council", isCurrent := true },
   { personName := "Alexis Mercedes Rinck", role := "Councilmember", label := "Position 8",
     personId := "ocd-person/ar", orgName := "Seattle City Council", isCurrent := true }]

/-- A person read that always succeeds with a contact-free person. -/
def okPersonRead : String → Except String OCDPerson :=
  fun _ => .ok { name := "Someone", contact_details := [], links := [] }

/-- The representative list assembled from `c4Rows` under `okPersonRead`. -/
def c4Reps : List RepData :=
  [{ name := "Robert Kettle", role := "Councilmember", district := "District 7",
     email := none, phone := none, profile_url := none },
   { name := "Alexis Mercedes Rinck", role := "Councilmember", district := "Position 8",
     email := none, phone := none, profile_url := none },
   { name := "Dionne Foster", role := "Councilmember", district := "Position 9",
     email := none, phone := none, profile_url := none }]

/-- The query row and person used to exercise the enrichment loops. -/
def c6Row : QRow :=
  { name := "Robert Kettle", role := "Councilmember", label := "District 7",
    person_id := "ocd-person/rk" }

/-- A person with two email contacts, a voice contact, and two profile links. -/
def c6Person : OCDPerson :=
  { name := "Robert Kettle",
    contact_details :=
      [{ type := "email", value := "first@seattle.gov" },
       { type := "voice", value := "206-555-0100" },
       { type := "email", value := "second@seattle.gov" }],
    links :=
      [{ note := "City Council profile", url := "https://example.org/first" },
       { note := "City Council profile", url := "https://example.org/second" }] }

/-- A provider whose every call raises `GeocoderTimedOut`. -/
def timeoutProvider : String → GeocodeOutcome := fun _ => .timedOut

/-- A provider whose every call raises `GeocoderServiceError`. -/
def failedProvider : String → GeocodeOutcome := fun _ => .failed "connection reset"

/-- An environment whose containment query raises a database error after a
successful geocode. -/
def c8Env : Env :=
  { provider := fun _ => .located 47 (-122) "600 4th Ave, Seattle, WA 98104",
    districtQuery := fun _ => .error "database connection lost",
    personRead := okPersonRead,
    memberships := c4Rows }

/-- An environment whose person read raises after district resolution
succeeds. -/
def c8bEnv : Env :=
  { provider := fun _ => .located 47 (-122) "600 4th Ave, Seattle, WA 98104",
    districtQuery := fun _ => .ok (some c3d7),
    personRead := fun _ => .error "Person matching query does not exist",
    memberships := c4Rows }

/-- A current Seattle City Council membership with an at-large label outside
the fixed {Position 8, Position 9} catalog. -/
def c10Row : MembershipRow :=
  { personName := "New Member", role := "Councilmember", label := "Position 10",
    personId := "ocd-person/nm", orgName := "Seattle City Council", isCurrent := true }

/-- Membership rows including the out-of-catalog "Position 10" seat. -/
def c10Rows : List MembershipRow := c4Rows ++ [c10Row]


/-! ### Order lemmas for the string and ranking-key comparisons -/

theorem charListLt_asymm :
    ∀ (a b : List Char), charListLt a b = true → charListLt b a = true → False := by
  intro a
  induction a with
  | nil =>
    intro b h h'
    cases b with
    | nil => simp [charListLt] at h
    | cons y ys => simp [charListLt] at h'
  | cons x xs ih =>
    intro b h h'
    cases b with
    | nil => simp [charListLt] at h
    | cons y ys =>
      simp only [charListLt] at h h'
      rcases lt_trichotomy x y with hxy | hxy | hxy
      · rw [if_neg (lt_asymm hxy), if_pos hxy] at h'
        exact Bool.false_ne_true h'
      · subst hxy
        rw [if_neg (lt_irrefl x), if_neg (lt_irrefl x)] at h h'
        exact ih ys h h'
      · rw [if_neg (lt_asymm hxy), if_pos hxy] at h
        exact Bool.false_ne_true h

theorem charListLt_trans :
    ∀ (a b c : List Char), charListLt a b = true → charListLt b c = true →
      charListLt a c = true := by
  intro a
  induction a with
  | nil =>
    intro b c h h'
    cases b with
    | nil => simp [charListLt] at h
    | cons y ys =>
      cases c with
      | nil => simp [charListLt] at h'
      | cons z zs => simp [charListLt]
  | cons x xs ih =>
    intro b c h h'
    cases b with
    | nil => simp [charListLt] at h
    | cons y ys =>
      cases c with
      | nil => simp [charListLt] at h'
      | cons z zs =>
        simp only [charListLt] at h h' ⊢
        rcases lt_trichotomy x y with hxy | hxy | hxy
        · rcases lt_trichotomy y z with hyz | hyz | hyz
          · rw [if_pos (lt_trans hxy hyz)]
          · subst hyz; rw [if_pos hxy]
          · rw [if_neg (lt_asymm hyz), if_pos hyz] at h'
            exact absurd h' Bool.false_ne_true
        · subst hxy
          rcases lt_trichotomy x z with hxz | hxz | hxz
          · rw [if_pos hxz]
          · subst hxz
            rw [if_neg (lt_irrefl x), if_neg (lt_irrefl x)] at h h' ⊢
            exact ih ys zs h h'
          · rw [if_neg (lt_asymm hxz), if_pos hxz] at h'
            exact absurd h' Bool.false_ne_true
        · rw [if_neg (lt_asymm hxy), if_pos hxy] at h
          exact absurd h Bool.false_ne_true

theorem charListLt_eq_of_false :
    ∀ (a b : List Char), charListLt a b = false → charListLt b a = false → a = b := by
  intro a
  induction a with
  | nil =>
    intro b h h'
    cases b with
    | nil => rfl
    | cons y ys => simp [charListLt] at h
  | cons x xs ih =>
    intro b h h'
    cases b with
    | nil => simp [charListLt] at h'
    | cons y ys =>
      simp only [charListLt] at h h'
      rcases lt_trichotomy x y with hxy | hxy | hxy
      · rw [if_pos hxy] at h
        exact Bool.noConfusion h
      · subst hxy
        rw [if_neg (lt_irrefl x), if_neg (lt_irrefl x)] at h h'
        rw [ih ys h h']
      · rw [if_pos hxy] at h'
        exact Bool.noConfusion h'

theorem strLe_total (a b : String) : strLe a b = true ∨ strLe b a = true := by
  simp only [strLe, strLt, Bool.not_eq_true']
  cases hba : charListLt b.data a.data with
  | false => exact Or.inl rfl
  | true =>
    cases hab : charListLt a.data b.data with
    | false => exact Or.inr rfl
    | true => exact (charListLt_asymm _ _ hab hba).elim

theorem strLe_trans {a b c : String} (h1 : strLe a b = true) (h2 : strLe b c = true) :
    strLe a c = true := by
  simp only [strLe, strLt, Bool.not_eq_true'] at h1 h2 ⊢
  cases hca : charListLt c.data a.data with
  | false => rfl
  | true =>
    exfalso
    cases hab : charListLt a.data b.data with
    | true =>
      have : charListLt c.data b.data = true := charListLt_trans _ _ _ hca hab
      rw [this] at h2
      exact Bool.noConfusion h2
    | false =>
      have hdata : a.data = b.data := charListLt_eq_of_false _ _ hab h1
      rw [hdata] at hca
      rw [hca] at h2
      exact Bool.noConfusion h2

theorem strLe_of_strLt {a b : String} (h : strLt a b = true) : strLe a b = true := by
  simp only [strLe, strLt, Bool.not_eq_true'] at *
  cases hba : charListLt b.data a.data with
  | false => rfl
  | true => exact (charListLt_asymm _ _ h hba).elim

theorem not_strLe_of_strLt {a b : String} (h : strLt a b = true) : strLe b a = false := by
  simp only [strLe, strLt] at *
  rw [h]
  rfl

theorem keyLt_trans {a b c : Nat × Nat} (h1 : keyLt a b) (h2 : keyLt b c) : keyLt a c := by
  unfold keyLt at *
  omega

theorem keyLt_total (a b : Nat × Nat) : keyLt a b ∨ a = b ∨ keyLt b a := by
  rcases lt_trichotomy a.1 b.1 with h | h | h
  · exact Or.inl (Or.inl h)
  · rcases lt_trichotomy a.2 b.2 with h2 | h2 | h2
    · exact Or.inl (Or.inr ⟨h, h2⟩)
    · exact Or.inr (Or.inl (Prod.ext_iff.mpr ⟨h, h2⟩))
    · exact Or.inr (Or.inr (Or.inr ⟨h.symm, h2⟩))
  · exact Or.inr (Or.inr (Or.inl h))

theorem keyLe_trans {a b c : Nat × Nat} (h1 : keyLe a b) (h2 : keyLe b c) : keyLe a c := by
  rcases h1 with rfl | h1
  · exact h2
  · rcases h2 with rfl | h2
    · exact Or.inr h1
    · exact Or.inr (keyLt_trans h1 h2)

theorem laterRecord_le_left (r s : OccupancyRecord) :
    keyLe (recKey r) (recKey (laterRecord r s)) := by
  unfold laterRecord
  split
  · exact Or.inr (by assumption)
  · exact Or.inl rfl

theorem laterRecord_le_right (r s : OccupancyRecord) :
    keyLe (recKey s) (recKey (laterRecord r s)) := by
  unfold laterRecord
  split
  · exact Or.inl rfl
  · rename_i h
    rcases keyLt_total (recKey r) (recKey s) with h1 | h1 | h1
    · exact absurd h1 h
    · exact Or.inl h1.symm
    · exact Or.inr h1

theorem foldl_laterRecord_mem :
    ∀ (rs : List OccupancyRecord) (r : OccupancyRecord),
      rs.foldl laterRecord r ∈ r :: rs := by
  intro rs
  induction rs with
  | nil =>
    intro r
    exact List.mem_singleton.mpr rfl
  | cons s ss ih =>
    intro r
    simp only [List.foldl_cons]
    rcases List.mem_cons.mp (ih (laterRecord r s)) with h1 | h1
    · rw [h1]
      unfold laterRecord
      split
      · exact List.mem_cons_of_mem _ (List.mem_cons_self _ _)
      · exact List.mem_cons_self _ _
    · exact List.mem_cons_of_mem _ (List.mem_cons_of_mem _ h1)

theorem foldl_laterRecord_max :
    ∀ (rs : List OccupancyRecord) (r x : OccupancyRecord), x ∈ r :: rs →
      keyLe (recKey x) (recKey (rs.foldl laterRecord r)) := by
  intro rs
  induction rs with
  | nil =>
    intro r x hx
    rw [List.mem_singleton] at hx
    subst hx
    exact Or.inl rfl
  | cons s ss ih =>
    intro r x hx
    simp only [List.foldl_cons]
    rcases List.mem_cons.mp hx with h1 | h1
    · subst h1
      exact keyLe_trans (laterRecord_le_left x s)
        (ih (laterRecord x s) (laterRecord x s) (List.mem_cons_self _ _))
    · rcases List.mem_cons.mp h1 with h2 | h2
      · subst h2
        exact keyLe_trans (laterRecord_le_right r x)
          (ih (laterRecord r x) (laterRecord r x) (List.mem_cons_self _ _))
      · exact ih (laterRecord r s) x (List.mem_cons_of_mem _ h2)

theorem mem_recordsForLabel {records : List OccupancyRecord} {label : String}
    {r : OccupancyRecord} (h : r ∈ recordsForLabel records label) :
    r ∈ records ∧ r.seatLabel = label := by
  unfold recordsForLabel at h
  have := List.mem_filter.mp h
  exact ⟨this.1, by simpa using this.2⟩

/-! ### C1: the recomputation selects exactly the lexicographic maximum -/

/-- C1: for every record sequence and every seat label having at least one
record (with pairwise distinct ranking keys, as the source guarantees: the tie
breaker `p.id` is a primary key), the recomputation selects exactly one record
of the label's group as current — the one maximizing `(createdAt, recordId)`
lexicographically, ties on `createdAt` broken by the larger `recordId` — and
every other record of the group is not current. -/
theorem C1_current_is_unique_max (records : List OccupancyRecord) (label : String)
    (hne : recordsForLabel records label ≠ [])
    (hkeys : ((recordsForLabel records label).map recKey).Nodup) :
    ∃ m, selectCurrent (recordsForLabel records label) = some m ∧
      m ∈ recordsForLabel records label ∧
      (∀ s ∈ recordsForLabel records label, s ≠ m → keyLt (recKey s) (recKey m)) ∧
      (∀ s ∈ recordsForLabel records label, (isCurrentRecord records s = true ↔ s = m)) := by
  cases hl : recordsForLabel records label with
  | nil => exact absurd hl hne
  | cons r rs =>
    rw [hl] at hkeys
    have hmem : rs.foldl laterRecord r ∈ r :: rs := foldl_laterRecord_mem rs r
    have hmax : ∀ s ∈ r :: rs, keyLe (recKey s) (recKey (rs.foldl laterRecord r)) :=
      fun s hs => foldl_laterRecord_max rs r s hs
    have hinj : ∀ x ∈ r :: rs, ∀ y ∈ r :: rs, recKey x = recKey y → x = y :=
      List.inj_on_of_nodup_map hkeys
    refine ⟨rs.foldl laterRecord r, rfl, hmem, ?_, ?_⟩
    · intro s hs hne2
      rcases hmax s hs with heq | hlt
      · exact absurd (hinj s hs _ hmem heq) hne2
      · exact hlt
    · intro s hs
      have hsl : s.seatLabel = label := by
        have hs2 : s ∈ recordsForLabel records label := by rw [hl]; exact hs
        exact (mem_recordsForLabel hs2).2
      unfold isCurrentRecord
      rw [hsl, hl]
      show decide (some (rs.foldl laterRecord r) = some s) = true ↔ _
      rw [decide_eq_true_eq]
      exact ⟨fun h => (Option.some.inj h).symm, fun h => by rw [h]⟩

/-- C1 witness at a concrete snapshot: on "Position 9" the `createdAt` tie is
broken by the larger `recordId`. -/
theorem C1_current_is_unique_max_witness :
    (recordsForLabel c1Records "Position 9" ≠ [] ∧
      ((recordsForLabel c1Records "Position 9").map recKey).Nodup) ∧
    (∃ m, selectCurrent (recordsForLabel c1Records "Position 9") = some m ∧
      m ∈ recordsForLabel c1Records "Position 9" ∧
      (∀ s ∈ recordsForLabel c1Records "Position 9", s ≠ m →
        keyLt (recKey s) (recKey m)) ∧
      (∀ s ∈ recordsForLabel c1Records "Position 9",
        (isCurrentRecord c1Records s = true ↔ s = m))) :=
  ⟨⟨by decide, by decide⟩,
    C1_current_is_unique_max c1Records "Position 9" (by decide) (by decide)⟩

/-! ### C2: the two-statement flip exposes a zero-current state to readers -/

/-- C2 (refuted; a bug in the source): `sync_people` issues
`UPDATE ... SET is_current = FALSE` and the re-marking `UPDATE` as two separate
statements on an autocommit connection, with no enclosing transaction, so the
state after the first statement is committed and visible.  At this concrete
snapshot, "Position 9" has records and one current record before the run and
after the run, but the observable intermediate state has zero current records
for it — the flip is not atomic for readers. -/
theorem C2_intermediate_state_has_zero_current :
    recordsForLabel c2Records "Position 9" ≠ [] ∧
    clearAll c2Table ∈ syncPeopleStates c2Records c2Table ∧
    currentRecordCount c2Table c2Records "Position 9" = 1 ∧
    currentRecordCount (clearAll c2Table) c2Records "Position 9" = 0 ∧
    currentRecordCount (syncPeople c2Records c2Table) c2Records "Position 9" = 1 := by
  decide

/-! ### C3: overlapping boundaries resolve to the smallest label, never a failure -/

theorem strLt_of_strLe_ne {a b : String} (h : strLe a b = true) (hne : a ≠ b) :
    strLt a b = true := by
  simp only [strLe, strLt, Bool.not_eq_true'] at h ⊢
  cases hab : charListLt a.data b.data with
  | true => rfl
  | false =>
    exfalso
    apply hne
    have hd : a.data = b.data := charListLt_eq_of_false _ _ hab h
    cases a with
    | mk la =>
      cases b with
      | mk lb => exact congrArg String.mk hd

/-- C3: when two or more stored districts contain a coordinate (their `number`
labels are unique by the model's constraint), `find_district_by_coordinates`
still returns a district — never a failure — namely a containing district whose
`number` is strictly smallest among all containing districts: Django's
`.first()` under `Meta.ordering = ['number']`.  Being a pure function of the
store and the point, the choice is deterministic. -/
theorem C3_tiebreak_smallest_label (store : List District) (p : GeoPoint)
    (hnodup : (store.map District.number).Nodup)
    (d1 d2 : District) (h1 : d1 ∈ store) (h2 : d2 ∈ store)
    (hnum : d1.number ≠ d2.number)
    (hc1 : d1.geom p = true) (hc2 : d2.geom p = true) :
    ∃ d, districtQueryDb store p = some d ∧ d ∈ store ∧ d.geom p = true ∧
      ∀ e ∈ store, e.geom p = true → e.number ≠ d.number →
        strLt d.number e.number = true := by
  haveI : IsTotal District districtLe := ⟨fun a b => strLe_total a.number b.number⟩
  haveI : IsTrans District districtLe := ⟨fun _ _ _ hab hbc => strLe_trans hab hbc⟩
  have hsorted : List.Pairwise districtLe (List.insertionSort districtLe store) :=
    List.sorted_insertionSort districtLe store
  have hperm := List.perm_insertionSort districtLe store
  have hfsorted : List.Pairwise districtLe
      ((List.insertionSort districtLe store).filter (fun d => d.geom p)) :=
    hsorted.sublist (List.filter_sublist _)
  cases hf : (List.insertionSort districtLe store).filter (fun d => d.geom p) with
  | nil =>
    exfalso
    have hin : d1 ∈ (List.insertionSort districtLe store).filter (fun d => d.geom p) :=
      List.mem_filter.mpr ⟨hperm.mem_iff.mpr h1, hc1⟩
    rw [hf] at hin
    exact absurd hin (List.not_mem_nil d1)
  | cons d ds =>
    have hdmem : d ∈ (List.insertionSort districtLe store).filter (fun d => d.geom p) := by
      rw [hf]
      exact List.mem_cons_self _ _
    have hdf := List.mem_filter.mp hdmem
    refine ⟨d, ?_, hperm.mem_iff.mp hdf.1, hdf.2, ?_⟩
    · unfold districtQueryDb
      rw [hf]
      rfl
    · intro e he hge hne
      have hef : e ∈ d :: ds := by
        rw [← hf]
        exact List.mem_filter.mpr ⟨hperm.mem_iff.mpr he, hge⟩
      rcases List.mem_cons.mp hef with rfl | hef
      · exact absurd rfl hne
      · rw [hf] at hfsorted
        have hle : districtLe d e := List.rel_of_sorted_cons hfsorted e hef
        exact strLt_of_strLe_ne hle (fun hq => hne hq.symm)

/-- C3 witness: two overlapping stored boundaries; the lookup returns the
district with the smaller label. -/
theorem C3_tiebreak_smallest_label_witness :
    ∃ d, districtQueryDb c3Store (0, 0) = some d ∧ d ∈ c3Store ∧
      d.geom (0, 0) = true ∧
      ∀ e ∈ c3Store, e.geom (0, 0) = true → e.number ≠ d.number →
        strLt d.number e.number = true :=
  C3_tiebreak_smallest_label c3Store (0, 0) (by decide) c3d7 c3d3
    (by unfold c3Store; exact List.mem_cons_self _ _)
    (by unfold c3Store; exact List.mem_cons_of_mem _ (List.mem_cons_self _ _))
    (by decide) rfl rfl

/-! ### Query membership, ordering, and enrichment lemmas -/

theorem mem_repQueryRows {rows : List MembershipRow} {dl : String} {q : QRow}
    (h : q ∈ repQueryRows rows dl) :
    ∃ m, m ∈ rows ∧ projRow m = q ∧ m.orgName = "Seattle City Council" ∧
      m.isCurrent = true ∧
      (m.label = dl ∨ charPrefix "Position".data m.label.data = true) := by
  unfold repQueryRows at h
  rw [List.mem_insertionSort, List.mem_dedup] at h
  rcases List.mem_map.mp h with ⟨m, hm, rfl⟩
  rcases List.mem_filter.mp hm with ⟨hmem, hcond⟩
  simp only [Bool.and_eq_true, Bool.or_eq_true, beq_iff_eq] at hcond
  exact ⟨m, hmem, rfl, hcond.1.1, hcond.1.2, hcond.2⟩

theorem mem_repQueryRows_of {rows : List MembershipRow} {dl : String}
    {m : MembershipRow} (hm : m ∈ rows) (h1 : m.orgName = "Seattle City Council")
    (h2 : m.isCurrent = true)
    (h3 : m.label = dl ∨ charPrefix "Position".data m.label.data = true) :
    projRow m ∈ repQueryRows rows dl := by
  unfold repQueryRows
  rw [List.mem_insertionSort, List.mem_dedup]
  refine List.mem_map_of_mem projRow (List.mem_filter.mpr ⟨hm, ?_⟩)
  simp only [Bool.and_eq_true, Bool.or_eq_true, beq_iff_eq]
  exact ⟨⟨h1, h2⟩, h3⟩

theorem repQueryRows_sorted (rows : List MembershipRow) (dl : String) :
    List.Pairwise qrowLe (repQueryRows rows dl) := by
  haveI : IsTotal QRow qrowLe := ⟨fun a b => strLe_total a.label b.label⟩
  haveI : IsTrans QRow qrowLe := ⟨fun _ _ _ hab hbc => strLe_trans hab hbc⟩
  exact List.sorted_insertionSort qrowLe _

theorem foldl_applyLink_char :
    ∀ (ls : List PersonLink) (rd : RepData),
      ls.foldl applyLink rd =
        { rd with
            profile_url := List.foldl
              (fun acc l => if l.note == "City Council profile" then some l.url else acc)
              rd.profile_url ls } := by
  intro ls
  induction ls with
  | nil => intro rd; rfl
  | cons l ls ih =>
    intro rd
    simp only [List.foldl_cons]
    rw [ih]
    unfold applyLink
    cases h : (l.note == "City Council profile") with
    | true => simp [h]
    | false => simp [h]

theorem foldl_applyContact_char :
    ∀ (cs : List ContactDetail) (rd : RepData),
      cs.foldl applyContact rd =
        { rd with
            email := List.foldl
              (fun acc c => if c.type == "email" then some c.value else acc)
              rd.email cs,
            phone := List.foldl
              (fun acc c => if c.type == "voice" then some c.value else acc)
              rd.phone cs } := by
  intro cs
  induction cs with
  | nil => intro rd; rfl
  | cons c cs ih =>
    intro rd
    simp only [List.foldl_cons]
    rw [ih]
    unfold applyContact
    cases h1 : (c.type == "email") with
    | true =>
      have he : c.type = "email" := by simpa using h1
      have h2 : (c.type == "voice") = false := by rw [he]; decide
      simp [h1, h2]
    | false =>
      cases h2 : (c.type == "voice") with
      | true => simp [h1, h2]
      | false => simp [h1, h2]

theorem foldl_overwrite {α β : Type} (P : α → Bool) (f : α → β) :
    ∀ (l : List α) (init : Option β),
      l.foldl (fun acc c => if P c then some (f c) else acc) init =
        match (l.filter P).getLast? with
        | some c => some (f c)
        | none => init := by
  intro l
  induction l with
  | nil => intro init; rfl
  | cons c cs ih =>
    intro init
    simp only [List.foldl_cons]
    rw [ih, List.filter_cons]
    cases h : P c with
    | true =>
      simp only [h, if_true]
      rw [List.getLast?_cons]
      cases hcs : (cs.filter P).getLast? with
      | some v => simp [hcs]
      | none => simp [hcs]
    | false =>
      simp [h]

theorem foldl_overwrite_none {α β : Type} (P : α → Bool) (f : α → β) (l : List α) :
    l.foldl (fun acc c => if P c then some (f c) else acc) none =
      ((l.filter P).getLast?).map f := by
  rw [foldl_overwrite]
  cases (l.filter P).getLast? with
  | some v => rfl
  | none => rfl

theorem buildRepData_district (q : QRow) (p : OCDPerson) :
    (buildRepData q p).district = q.label := by
  unfold buildRepData
  rw [foldl_applyContact_char, foldl_applyLink_char]

theorem mapExcept_ok_map_district {pr : String → Except String OCDPerson}
    {qs : List QRow} {reps : List RepData}
    (h : mapExcept (fun q => (pr q.person_id).map (buildRepData q)) qs = .ok reps) :
    reps.map RepData.district = qs.map QRow.label := by
  induction qs generalizing reps with
  | nil =>
    simp only [mapExcept, Except.ok.injEq] at h
    subst h
    rfl
  | cons q qs ih =>
    cases hf : (pr q.person_id).map (buildRepData q) with
    | error e =>
      simp only [mapExcept, hf] at h
      exact Except.noConfusion h
    | ok b =>
      cases hrest : mapExcept (fun q => (pr q.person_id).map (buildRepData q)) qs with
      | error e =>
        simp only [mapExcept, hf, hrest] at h
        exact Except.noConfusion h
      | ok bs =>
        simp only [mapExcept, hf, hrest, Except.ok.injEq] at h
        subst h
        have hbd : b.district = q.label := by
          cases hp : pr q.person_id with
          | error e =>
            rw [hp] at hf
            simp only [Except.map] at hf
            exact Except.noConfusion hf
          | ok pp =>
            rw [hp] at hf
            simp only [Except.map, Except.ok.injEq] at hf
            rw [← hf, buildRepData_district]
        simp only [List.map_cons]
        rw [ih hrest, hbd]

theorem strLt_district_position (dn : String)
    (hdn : dn ∈ ["1", "2", "3", "4", "5", "6", "7", "At Large"]) :
    strLt ("District " ++ dn) "Position 8" = true ∧
    strLt ("District " ++ dn) "Position 9" = true := by
  fin_cases hdn <;> exact ⟨by decide, by decide⟩

/-! ### C4: representative ordering — district seat first, then the at-large seats -/

/-- C4: for every successful assembly (any Seattle district label, and the
jurisdiction's fixed at-large catalog {Position 8, Position 9}), the returned
representatives are ordered by seat label: every entry for the resolved
district's own seat precedes every at-large entry, and "Position 8" entries
precede "Position 9" entries — the `ORDER BY m.label` order. -/
theorem C4_district_seat_first_then_at_large (rows : List MembershipRow)
    (personRead : String → Except String OCDPerson) (dn : String)
    (reps : List RepData)
    (hdn : dn ∈ ["1", "2", "3", "4", "5", "6", "7", "At Large"])
    (hcat : ∀ m ∈ rows, charPrefix "Position".data m.label.data = true →
      m.label = "Position 8" ∨ m.label = "Position 9")
    (hok : getRepresentativesForDistrict rows personRead dn = .ok reps) :
    (∀ r ∈ reps, r.district = "District " ++ dn ∨ r.district = "Position 8" ∨
      r.district = "Position 9") ∧
    List.Pairwise (fun a b : RepData => strLe a.district b.district = true) reps ∧
    (∀ (i j : Nat) (hi : i < reps.length) (hj : j < reps.length), i < j →
      (reps[i].district ≠ "District " ++ dn → reps[j].district ≠ "District " ++ dn) ∧
      (reps[i].district = "Position 9" → reps[j].district = "Position 9")) := by
  unfold getRepresentativesForDistrict at hok
  have hlab : reps.map RepData.district =
      (repQueryRows rows ("District " ++ dn)).map QRow.label :=
    mapExcept_ok_map_district hok
  have hclass : ∀ r ∈ reps, r.district = "District " ++ dn ∨
      r.district = "Position 8" ∨ r.district = "Position 9" := by
    intro r hr
    have hmem : r.district ∈ reps.map RepData.district := List.mem_map_of_mem _ hr
    rw [hlab] at hmem
    rcases List.mem_map.mp hmem with ⟨qrow, hq, hq2⟩
    rcases mem_repQueryRows hq with ⟨m, hm, hproj, _, _, hlabel⟩
    have hrd : r.district = m.label := by rw [← hq2, ← hproj]; rfl
    rcases hlabel with h | h
    · left
      rw [hrd, h]
    · rcases hcat m hm h with h8 | h9
      · right; left
        rw [hrd, h8]
      · right; right
        rw [hrd, h9]
  have hpair : List.Pairwise
      (fun a b : RepData => strLe a.district b.district = true) reps := by
    have hq := repQueryRows_sorted rows ("District " ++ dn)
    have h1 : List.Pairwise (fun a b : String => strLe a b = true)
        ((repQueryRows rows ("District " ++ dn)).map QRow.label) :=
      List.pairwise_map.mpr hq
    rw [← hlab] at h1
    exact List.pairwise_map.mp h1
  refine ⟨hclass, hpair, ?_⟩
  intro i j hi hj hij
  have hrel : strLe (reps[i].district) (reps[j].district) = true :=
    List.pairwise_iff_getElem.mp hpair i j hi hj hij
  have hstr := strLt_district_position dn hdn
  have hci := hclass reps[i] (List.getElem_mem hi)
  constructor
  · intro hne hj2
    rcases hci with h | h | h
    · exact hne h
    · rw [h, hj2, not_strLe_of_strLt hstr.1] at hrel
      exact Bool.noConfusion hrel
    · rw [h, hj2, not_strLe_of_strLt hstr.2] at hrel
      exact Bool.noConfusion hrel
  · intro h9
    have hcj := hclass reps[j] (List.getElem_mem hj)
    rcases hcj with h | h | h
    · rw [h9, h, not_strLe_of_strLt hstr.2] at hrel
      exact Bool.noConfusion hrel
    · rw [h9, h] at hrel
      exact absurd hrel (by decide)
    · exact h

/-- C4 witness: district "7" with all three current seats, listed out of order
in the source data; the assembled list comes back ordered
[District 7, Position 8, Position 9]. -/
theorem C4_district_seat_first_then_at_large_witness :
    (getRepresentativesForDistrict c4Rows okPersonRead "7" = .ok c4Reps) ∧
    ((∀ r ∈ c4Reps, r.district = "District " ++ "7" ∨ r.district = "Position 8" ∨
        r.district = "Position 9") ∧
      List.Pairwise (fun a b : RepData => strLe a.district b.district = true) c4Reps ∧
      (∀ (i j : Nat) (hi : i < c4Reps.length) (hj : j < c4Reps.length), i < j →
        (c4Reps[i].district ≠ "District " ++ "7" →
          c4Reps[j].district ≠ "District " ++ "7") ∧
        (c4Reps[i].district = "Position 9" → c4Reps[j].district = "Position 9"))) :=
  ⟨rfl, C4_district_seat_first_then_at_large c4Rows okPersonRead "7" c4Reps
    (by decide) (by decide) rfl⟩

/-! ### C10: at-large inclusion is a prefix pattern, not a fixed catalog -/

/-- C10: every current Seattle City Council membership row whose label begins
with "Position" is included in the query result for any resolved district — the
SQL uses `m.label LIKE 'Position%'`, so no fixed catalog restricts which
position labels qualify. -/
theorem C10_position_prefix_included (rows : List MembershipRow)
    (districtLabel : String) (m : MembershipRow) (hm : m ∈ rows)
    (horg : m.orgName = "Seattle City Council") (hcur : m.isCurrent = true)
    (hpos : charPrefix "Position".data m.label.data = true) :
    projRow m ∈ repQueryRows rows districtLabel :=
  mem_repQueryRows_of hm horg hcur (Or.inr hpos)

/-- C10 witness: the out-of-catalog label "Position 10" is included. -/
theorem C10_position_prefix_included_witness :
    projRow c10Row ∈ repQueryRows c10Rows "District 7" :=
  C10_position_prefix_included c10Rows "District 7" c10Row (by decide) (by decide)
    (by decide) (by decide)

/-! ### C6: enrichment keeps the last matching contact and link, not the first -/

/-- C6 counterexample (refuting the claim as stated): at this concrete person,
who has two email contacts and two profile links, the built entry differs from
the claim's first-match enrichment — each loop iteration overwrites the key, so
the LAST match wins for `email` and `profile_url`. -/
theorem C6_counterexample_first_match :
    buildRepData c6Row c6Person ≠ specFirstEnrichment c6Row c6Person ∧
    (buildRepData c6Row c6Person).email = some "second@seattle.gov" ∧
    (specFirstEnrichment c6Row c6Person).email = some "first@seattle.gov" ∧
    (buildRepData c6Row c6Person).profile_url = some "https://example.org/second" ∧
    (specFirstEnrichment c6Row c6Person).profile_url = some "https://example.org/first" := by
  decide

/-- C6 amended: enrichment sets `email` to the value of the LAST contact of
type "email", `phone` to the value of the LAST contact of type "voice", and
`profile_url` to the url of the LAST link noted "City Council profile"; when no
matching contact or link exists the field stays `none` (omitted), never
fabricated, and its absence raises no error. -/
theorem C6_amended_enrichment_is_last_match (q : QRow) (p : OCDPerson) :
    buildRepData q p = lastEnrichment q p := by
  unfold buildRepData lastEnrichment
  rw [foldl_applyContact_char, foldl_applyLink_char]
  refine RepData.ext rfl rfl rfl ?_ ?_ ?_
  · exact foldl_overwrite_none _ _ _
  · exact foldl_overwrite_none _ _ _
  · exact foldl_overwrite_none _ _ _

/-! ### C5: the recomputation is idempotent on an unchanged snapshot -/

theorem markCurrent_clearAll (records : List OccupancyRecord) (t : List PersonFlag) :
    markCurrent records (clearAll t) =
      t.map (fun p =>
        { personId := p.personId, isCurrent := (currentIds records).elem p.personId }) := by
  unfold markCurrent clearAll
  rw [List.map_map]
  apply List.map_congr_left
  intro p _
  simp only [Function.comp_apply]
  cases h : (currentIds records).elem p.personId with
  | true => simp [h]
  | false => simp [h]

theorem syncPeople_flag (records : List OccupancyRecord) (t : List PersonFlag) :
    ∀ p ∈ syncPeople records t, p.isCurrent = (currentIds records).elem p.personId := by
  intro p hp
  unfold syncPeople insertMissing at hp
  rw [markCurrent_clearAll] at hp
  rcases List.mem_append.mp hp with h | h
  · rcases List.mem_map.mp h with ⟨q, _, rfl⟩
    rfl
  · rcases List.mem_map.mp h with ⟨i, hi, rfl⟩
    have hmem : i ∈ currentIds records := List.mem_dedup.mp (List.mem_of_mem_filter hi)
    exact (List.elem_iff.mpr hmem).symm

theorem markCurrent_clearAll_fix {records : List OccupancyRecord}
    {t1 : List PersonFlag}
    (h : ∀ p ∈ t1, p.isCurrent = (currentIds records).elem p.personId) :
    markCurrent records (clearAll t1) = t1 := by
  rw [markCurrent_clearAll]
  have h2 : ∀ p ∈ t1,
      ({ personId := p.personId,
         isCurrent := (currentIds records).elem p.personId } : PersonFlag) = p := by
    intro p hp
    rw [← h p hp]
  exact (List.map_congr_left h2).trans (List.map_id t1)

theorem currentIds_subset_sync (records : List OccupancyRecord) (t : List PersonFlag) :
    ∀ i ∈ (currentIds records).dedup, (tableIds (syncPeople records t)).elem i = true := by
  intro i hi
  apply List.elem_iff.mpr
  show i ∈ tableIds (insertMissing records (markCurrent records (clearAll t)))
  unfold insertMissing tableIds
  rw [List.map_append, List.map_map]
  cases hmem : ((markCurrent records (clearAll t)).map (·.personId)).elem i with
  | true => exact List.mem_append_left _ (List.elem_iff.mp hmem)
  | false =>
    apply List.mem_append_right
    refine List.mem_map.mpr ⟨i, List.mem_filter.mpr ⟨hi, ?_⟩, rfl⟩
    show (!(tableIds (markCurrent records (clearAll t))).elem i) = true
    unfold tableIds
    rw [hmem]
    rfl

/-- C5: `sync_people` is idempotent — running it a second time on the same
unchanged record snapshot leaves the `councilmatic_core_person` table (and so
every `is_current` flag a reader derives from it) exactly as after one run; the
derived seat-label-to-person mapping `computeCurrent` depends only on the
snapshot and is identical across the runs. -/
theorem C5_sync_idempotent (records : List OccupancyRecord) (t : List PersonFlag) :
    syncPeople records (syncPeople records t) = syncPeople records t ∧
    ∀ pid, flagOf (syncPeople records (syncPeople records t)) pid =
      flagOf (syncPeople records t) pid := by
  have hfix := markCurrent_clearAll_fix (syncPeople_flag records t)
  have hmain : syncPeople records (syncPeople records t) = syncPeople records t := by
    show insertMissing records (markCurrent records (clearAll (syncPeople records t))) = _
    rw [hfix]
    unfold insertMissing
    have hnil : ((currentIds records).dedup.filter
        (fun i => !(tableIds (syncPeople records t)).elem i)) = [] := by
      rw [List.filter_eq_nil_iff]
      intro i hi
      rw [currentIds_subset_sync records t i hi]
      simp
    rw [hnil]
    simp
  exact ⟨hmain, fun pid => by rw [hmain]⟩

/-! ### C7: timeout and provider error both collapse to None, one call, no retry -/

/-- C7: for every address, a provider timeout and a non-timeout provider error
are both returned to the caller as `None` (no result, never an exception), the
client calls the provider exactly once (no internal retry), and the two cases
yield identical returned values, differing only in what is logged. -/
theorem C7_timeout_and_error_collapse_to_none
    (provider1 provider2 : String → GeocodeOutcome) (address msg : String)
    (h1 : provider1 (normalizeAddress address) = .timedOut)
    (h2 : provider2 (normalizeAddress address) = .failed msg) :
    (geocode_address provider1 address).result = none ∧
    (geocode_address provider2 address).result = none ∧
    (geocode_address provider1 address).result =
      (geocode_address provider2 address).result ∧
    (geocode_address provider1 address).providerCalls = [normalizeAddress address] ∧
    (geocode_address provider2 address).providerCalls = [normalizeAddress address] ∧
    (geocode_address provider1 address).printed = [] ∧
    (geocode_address provider2 address).printed =
      ["Geocoding service error: " ++ msg] := by
  unfold geocode_address
  simp [h1, h2]

/-- C7 witness at a concrete address with one always-timing-out and one
always-erroring provider. -/
theorem C7_timeout_and_error_collapse_to_none_witness :
    ((geocode_address timeoutProvider "City Hall").result = none ∧
      (geocode_address failedProvider "City Hall").result = none ∧
      (geocode_address timeoutProvider "City Hall").result =
        (geocode_address failedProvider "City Hall").result ∧
      (geocode_address timeoutProvider "City Hall").providerCalls =
        [normalizeAddress "City Hall"] ∧
      (geocode_address failedProvider "City Hall").providerCalls =
        [normalizeAddress "City Hall"] ∧
      (geocode_address timeoutProvider "City Hall").printed = [] ∧
      (geocode_address failedProvider "City Hall").printed =
        ["Geocoding service error: " ++ "connection reset"]) :=
  C7_timeout_and_error_collapse_to_none timeoutProvider failedProvider
    "City Hall" "connection reset" rfl rfl

/-! ### C8: which internal failures reach the caller as a server error -/

/-- C8 counterexample (refuting the claim as stated): a database error raised
by the containment query is caught inside `find_district_by_coordinates` and
converted to `None`, so the view reports it as the 404 NotFound payload — not
the 500 server error the claim requires for every internal failure. -/
theorem C8_counterexample_db_error_reported_as_not_found :
    (lookup_reps c8Env "600 4th Ave").1 =
      { status := 404, error := some "Address not found or not in Seattle" } ∧
    ({ status := 404, error := some "Address not found or not in Seattle" } :
        ViewResponse) ≠
      { status := 500, error := some "Internal server error" } := by
  exact ⟨rfl, by decide⟩

/-- C8 amended: an exception escaping the representative-assembly stage (for
example the Person read failing) surfaces as the generic 500 server error,
distinct from the NotFound response; but a database error raised by the
containment query is caught and converted to `None`, reaching the caller as
NotFound instead. -/
theorem C8_amended_assembly_errors_500_but_db_errors_404 (env : Env)
    (address e : String) (tr : List String)
    (hne : (pyStrip address == "") = false)
    (herr : lookup_by_address env (pyStrip address) = (.error e, tr)) :
    lookup_reps env address =
      ({ status := 500, error := some "Internal server error" }, tr) ∧
    (∀ (dq : GeoPoint → Except String (Option District)) (la lo : Int) (msg : String),
      dq (lo, la) = .error msg → find_district_by_coordinates dq la lo = none) ∧
    ({ status := 500, error := some "Internal server error" } : ViewResponse) ≠
      { status := 404, error := some "Address not found or not in Seattle" } := by
  refine ⟨?_, ?_, by decide⟩
  · unfold lookup_reps
    simp [hne, herr]
  · intro dq la lo msg hmsg
    unfold find_district_by_coordinates
    rw [hmsg]

/-- C8 witness for the amended claim: the Person read fails after a successful
geocode and district resolution; the view answers 500. -/
theorem C8_amended_assembly_errors_500_but_db_errors_404_witness :
    ((pyStrip "600 4th Ave" == "") = false ∧
      lookup_by_address c8bEnv (pyStrip "600 4th Ave") =
        (.error "Person matching query does not exist",
          ["600 4th Ave, Seattle, WA"])) ∧
    (lookup_reps c8bEnv "600 4th Ave" =
        ({ status := 500, error := some "Internal server error" },
          ["600 4th Ave, Seattle, WA"]) ∧
      (∀ (dq : GeoPoint → Except String (Option District)) (la lo : Int) (msg : String),
        dq (lo, la) = .error msg → find_district_by_coordinates dq la lo = none) ∧
      ({ status := 500, error := some "Internal server error" } : ViewResponse) ≠
        { status := 404, error := some "Address not found or not in Seattle" }) :=
  ⟨⟨rfl, rfl⟩,
    C8_amended_assembly_errors_500_but_db_errors_404 c8bEnv "600 4th Ave"
      "Person matching query does not exist" ["600 4th Ave, Seattle, WA"] rfl rfl⟩

/-! ### C9: blank addresses are rejected before any external call -/

/-- C9: a request whose address is empty (or only whitespace) after stripping
is rejected with the 400 client error before any service work — in particular
the geocoder-call trace is empty: no external call is attempted. -/
theorem C9_blank_address_rejected_before_geocoding (env : Env) (address : String)
    (h : pyStrip address = "") :
    lookup_reps env address =
      ({ status := 400, error := some "Address parameter is required" }, []) := by
  unfold lookup_reps
  simp [h]

/-- C9 witness: a whitespace-only address is rejected with 400 and an empty
provider-call trace, whatever the environment would answer. -/
theorem C9_blank_address_rejected_before_geocoding_witness :
    pyStrip "   " = "" ∧
    lookup_reps c8bEnv "   " =
      ({ status := 400, error := some "Address parameter is required" }, []) :=
  ⟨rfl, C9_blank_address_rejected_before_geocoding c8bEnv "   " rfl⟩

end Seattle
